import Mathlib

/-!
Verification of the document CRUD service (src/main.go, src/dbController.go).

The service keeps its documents in an external MongoDB collection; here the
collection is modelled as a list of documents in insertion order.  Every
fallible store call of the Go code takes an extra Boolean argument that
injects the store-failure outcome of that call (`true` = the driver call
returned an error other than "no documents"); with the flag `false` the call
behaves as the store's documented success/no-match semantics.
-/

/-- src/main.go lines 10-13: the nested `content` object.  Go pointer fields
with `omitempty` model optional JSON fields, here `Option`. -/
structure DocumentContent where
  header : Option String
  data : Option String
deriving Repr, DecidableEq

/-- src/main.go lines 15-20: the document entity. -/
structure Document where
  id : Option Int
  title : Option String
  content : Option DocumentContent
  signee : Option String
deriving Repr, DecidableEq

/-- src/dbController.go lines 14-21: the four-valued outcome tag. -/
inductive DocumentStatus where
  | OK
  | NotFound
  | CouldNotProceed
  | ImplementationError
deriving Repr, DecidableEq

open DocumentStatus

/-- The external MongoDB collection, in insertion (natural) order. -/
abbrev Store := List Document

/-- src/dbController.go lines 60-78 `getDocument`: FindOne with filter
`{id: id}` returns the first document whose id field equals `id`;
`mongo.ErrNoDocuments` maps to `NotFound`, any other find/decode error
(injected by `findFail`) to `CouldNotProceed`. -/
def getDocument (s : Store) (id : Int) (findFail : Bool) :
    DocumentStatus × Option Document :=
  if findFail then (CouldNotProceed, none)
  else
    match s.find? (fun d => d.id == some id) with
    | some document => (OK, some document)
    | none => (NotFound, none)

/-- src/dbController.go lines 123-136 `internalGetDocument`. -/
def internalGetDocument (s : Store) (id : Int) (findFail : Bool) :
    DocumentStatus × Option Document :=
  match getDocument s id findFail with
  | (OK, document) => (OK, document)
  | (CouldNotProceed, _) => (CouldNotProceed, none)
  | (NotFound, _) => (ImplementationError, none)
  | (ImplementationError, _) => (ImplementationError, none)

/-- MongoDB sort key order on the optional id field: a document missing the
field sorts below every number. -/
def idLt : Option Int → Option Int → Bool
  | none, none => false
  | none, some _ => true
  | some _, none => false
  | some x, some y => decide (x < y)

/-- One comparison step of the descending-by-id FindOne: keep the record
with the larger id key, the earlier one on ties. -/
def maxStep (best x : Document) : Document :=
  if idLt best.id x.id then x else best

/-- FindOne with a descending sort on id: the first document in sort order,
i.e. one whose id key is maximal (ties resolved by natural order). -/
def maxIdDoc (s : Store) : Option Document :=
  match s with
  | [] => none
  | d :: rest => some (rest.foldl maxStep d)

/-- src/dbController.go lines 101-119 `getNewId`: empty collection gives 0,
otherwise the maximal id plus one.  `Except.error` models the Go `(-1, err)`
return.  The Go code dereferences `document.ID` unconditionally; on a
nonempty collection whose maximal record lacks an id that is a runtime
panic, modelled here as an error — every theorem below works in stores in
which each record carries an id, where that branch is unreachable. -/
def getNewId (s : Store) (findFail : Bool) : Except Unit Int :=
  if findFail then .error ()
  else
    match maxIdDoc s with
    | none => .ok 0
    | some document =>
      match document.id with
      | some n => .ok (n + 1)
      | none => .error ()

/-- src/dbController.go lines 138-156 `createDocument`: compute the next id,
overwrite the request document's id with it, InsertOne (append in natural
order), then re-fetch through `internalGetDocument`. -/
def createDocument (s : Store) (document : Document)
    (idFail insertFail refetchFail : Bool) :
    (DocumentStatus × Option Document) × Store :=
  match getNewId s idFail with
  | .error _ => ((CouldNotProceed, none), s)
  | .ok newId =>
    let document := { document with id := some newId }
    if insertFail then ((CouldNotProceed, none), s)
    else
      let inserted := s ++ [document]
      (internalGetDocument inserted newId refetchFail, inserted)

/-- JSON values arising from serializing a `Document`. -/
inductive Json where
  | str (s : String)
  | int (n : Int)
  | obj (fields : List (String × Json))
deriving Repr

/-- json.Marshal of `DocumentContent`: `omitempty` drops nil fields. -/
def marshalContent (c : DocumentContent) : List (String × Json) :=
  (match c.header with | some h => [("header", Json.str h)] | none => []) ++
  (match c.data with | some d => [("data", Json.str d)] | none => [])

/-- json.Marshal of `Document`: `omitempty` drops nil fields; a non-nil
content pointer serializes as a nested object. -/
def marshalDocument (d : Document) : List (String × Json) :=
  (match d.id with | some n => [("id", Json.int n)] | none => []) ++
  (match d.title with | some t => [("title", Json.str t)] | none => []) ++
  (match d.content with | some c => [("content", Json.obj (marshalContent c))] | none => []) ++
  (match d.signee with | some sg => [("signee", Json.str sg)] | none => [])

/-- Key joining of the flatten library's DotStyle: top level keys are bare,
nested keys get the parent key and a dot prefixed. -/
def joinKey (pre key : String) : String :=
  if pre = "" then key else pre ++ "." ++ key

mutual

/-- github.com/jeremywohl/flatten with DotStyle: scalars are emitted under
their dotted path, objects are walked recursively (so an empty object
contributes no keys at all). -/
def flattenJson (pre : String) : Json → List (String × Json)
  | .str s => [(pre, .str s)]
  | .int n => [(pre, .int n)]
  | .obj fields => flattenFields pre fields

/-- Flatten each field of an object in order. -/
def flattenFields (pre : String) : List (String × Json) → List (String × Json)
  | [] => []
  | (key, v) :: rest => flattenJson (joinKey pre key) v ++ flattenFields pre rest

end

/-- src/dbController.go lines 158-181 `toStrippedMap`: marshal with
`omitempty` (drops nil fields), flatten dot-style, read back as a key→value
map.  Marshal and flatten cannot fail on this struct, so the Go error
returns never fire and are not modelled. -/
def toStrippedMap (document : Document) : List (String × Json) :=
  flattenJson "" (Json.obj (marshalDocument document))

/-- MongoDB `$set` of one dotted-path field on a stored record.  A dotted
content path creates the content subdocument when it is absent.  Keys other
than the five `toStrippedMap` can produce never arise and leave the record
unchanged. -/
def setField (d : Document) : String × Json → Document
  | ("id", Json.int n) => { d with id := some n }
  | ("title", Json.str t) => { d with title := some t }
  | ("signee", Json.str sg) => { d with signee := some sg }
  | ("content.header", Json.str h) =>
    { d with content := some { (d.content.getD ⟨none, none⟩) with header := some h } }
  | ("content.data", Json.str x) =>
    { d with content := some { (d.content.getD ⟨none, none⟩) with data := some x } }
  | _ => d

/-- MongoDB `$set` with a whole field map: each dotted-path entry applied. -/
def applyStrippedMap (d : Document) (m : List (String × Json)) : Document :=
  m.foldl setField d

/-- UpdateOne with filter `{id: id}` and `$set`: the first matching record is
updated in place; `none` models `MatchedCount == 0`. -/
def updateFirst (s : Store) (id : Int) (m : List (String × Json)) : Option Store :=
  match s with
  | [] => none
  | d :: rest =>
    if d.id == some id then some (applyStrippedMap d m :: rest)
    else (updateFirst rest id m).map (d :: ·)

/-- src/dbController.go lines 186-214 `updateDocument`.  A patch without an
id is an `ImplementationError`; the sparse field map is `$set` against the
record matching the id with no upsert; zero matches give `NotFound`; success
re-fetches through `internalGetDocument`. -/
def updateDocument (s : Store) (patchDocument : Document)
    (updateFail refetchFail : Bool) :
    (DocumentStatus × Option Document) × Store :=
  match patchDocument.id with
  | none => ((ImplementationError, none), s)
  | some id =>
    let strippedMap := toStrippedMap patchDocument
    if updateFail then ((CouldNotProceed, none), s)
    else
      match updateFirst s id strippedMap with
      | none => ((NotFound, none), s)
      | some updated => (internalGetDocument updated id refetchFail, updated)

/-- DeleteOne with filter `{id: id}`: removes the first matching record;
`none` models `DeletedCount == 0`. -/
def deleteFirst (s : Store) (id : Int) : Option Store :=
  match s with
  | [] => none
  | d :: rest =>
    if d.id == some id then some rest
    else (deleteFirst rest id).map (d :: ·)

/-- src/dbController.go lines 216-228 `deleteDocument`. -/
def deleteDocument (s : Store) (id : Int) (deleteFail : Bool) :
    DocumentStatus × Store :=
  if deleteFail then (CouldNotProceed, s)
  else
    match deleteFirst s id with
    | none => (NotFound, s)
    | some removed => (OK, removed)

/-- src/main.go lines 104-111 `isCompleteDocument`. -/
def isCompleteDocument (document : Document) : Bool :=
  match document.content with
  | some content =>
    document.title.isSome && content.header.isSome &&
      content.data.isSome && document.signee.isSome
  | none => false

/-- src/main.go lines 142-150 `isValidPatchDocument`. -/
def isValidPatchDocument (document : Document) : Bool :=
  let existingContent :=
    match document.content with
    | some content => content.header.isSome || content.data.isSome
    | none => false
  existingContent || document.title.isSome || document.signee.isSome

/-- Decimal digit accumulation for `toInt`: every character must be a
digit and at least one digit must be present (the empty list fails). -/
def parseNatAux : List Char → Nat → Option Nat
  | [], acc => some acc
  | c :: cs, acc =>
    if c.isDigit then parseNatAux cs (acc * 10 + (c.toNat - 48)) else none

/-- One-or-more decimal digits as a natural number. -/
def parseNat : List Char → Option Nat
  | [] => none
  | cs => parseNatAux cs 0

/-- src/main.go lines 50-52 `toInt`, i.e. strconv.Atoi on the :id path
parameter: an optional sign followed by one or more decimal digits, anything
else is an error. -/
def toInt (str : String) : Except Unit Int :=
  match str.toList with
  | '-' :: rest => match parseNat rest with | some n => .ok (-(n : Int)) | none => .error ()
  | '+' :: rest => match parseNat rest with | some n => .ok (n : Int) | none => .error ()
  | cs => match parseNat cs with | some n => .ok (n : Int) | none => .error ()

/-- A JSON response body as the handlers send them. -/
inductive ResponseBody where
  | httpError (message : String)
  | document (d : Option Document)
  | empty
deriving Repr, DecidableEq

/-- The status switch closing src/main.go `handleUpdateDocument` (lines
187-198), as a function of the request id parameter and the `updateDocument`
result; `ImplementationError` reaches the 500 arm via fallthrough/default. -/
def handleUpdateDocumentResponse (idParam : String)
    (result : DocumentStatus × Option Document) : Nat × ResponseBody :=
  match result.1 with
  | OK => (200, .document result.2)
  | CouldNotProceed => (502, .httpError "external database does not respond properly")
  | NotFound => (404, .httpError ("could not find document with id " ++ idParam))
  | ImplementationError => (500, .httpError "unexpected server state")

/-- src/main.go lines 152-199 `handleUpdateDocument`.  The request body
arrives pre-parsed: `.error` models a BindJSON failure.  Returns the
response (status code, body) and the store after the request. -/
def handleUpdateDocument (s : Store) (idParam : String)
    (body : Except Unit Document) (updateFail refetchFail : Bool) :
    (Nat × ResponseBody) × Store :=
  match toInt idParam with
  | .error _ =>
    ((400, .httpError ("requested id '" ++ idParam ++ "' is not a number")), s)
  | .ok id =>
    match body with
    | .error _ => ((400, .httpError "illegal structure of json object"), s)
    | .ok patchDocument =>
      if !isValidPatchDocument patchDocument then
        ((400, .httpError "not a valid document for update; at least one field except id is needed."), s)
      else
        match patchDocument.id with
        | some bodyId =>
          if bodyId != id then
            ((400, .httpError ("id in request (" ++ toString id ++
              ") does not correpsond to id in json object (" ++ toString bodyId ++ ")")), s)
          else
            let (result, updated) := updateDocument s patchDocument updateFail refetchFail
            (handleUpdateDocumentResponse idParam result, updated)
        | none =>
          let patchDocument := { patchDocument with id := some id }
          let (result, updated) := updateDocument s patchDocument updateFail refetchFail
          (handleUpdateDocumentResponse idParam result, updated)

/-- The status switch closing src/main.go `handleDeleteDocument` (lines
211-220). -/
def handleDeleteDocumentResponse (idParam : String) (status : DocumentStatus) :
    Nat × ResponseBody :=
  match status with
  | OK => (204, .empty)
  | CouldNotProceed => (502, .httpError "external database does not respond properly")
  | NotFound => (404, .httpError ("could not find document with id " ++ idParam))
  | ImplementationError => (500, .httpError "unexpected server state")

/-- src/main.go lines 201-221 `handleDeleteDocument`. -/
def handleDeleteDocument (s : Store) (idParam : String) (deleteFail : Bool) :
    (Nat × ResponseBody) × Store :=
  match toInt idParam with
  | .error _ =>
    ((400, .httpError ("requested id '" ++ idParam ++ "' is not a number")), s)
  | .ok id =>
    let (status, after) := deleteDocument s id deleteFail
    (handleDeleteDocumentResponse idParam status, after)

/-- The header field reachable through the optional content object. -/
def contentHeader (d : Document) : Option String :=
  d.content.bind DocumentContent.header

/-- The data field reachable through the optional content object. -/
def contentData (d : Document) : Option String :=
  d.content.bind DocumentContent.data

/-! ## Helper lemmas -/

theorem idLt_irrefl (a : Option Int) : idLt a a = false := by
  cases a <;> simp [idLt]

theorem idLt_asymm (a b : Option Int) (h : idLt a b = true) : idLt b a = false := by
  cases a <;> cases b <;> simp [idLt] at h ⊢ <;> omega

theorem idLe_trans (a b c : Option Int) (hab : idLt b a = false)
    (hbc : idLt c b = false) : idLt c a = false := by
  cases a <;> cases b <;> cases c <;> simp [idLt] at hab hbc ⊢ <;> omega

theorem find?_append_none {α : Type} (p : α → Bool) (l₁ l₂ : List α)
    (h : l₁.find? p = none) : (l₁ ++ l₂).find? p = l₂.find? p := by
  induction l₁ with
  | nil => rfl
  | cons x xs ih =>
    rw [List.find?_cons] at h
    rw [List.cons_append, List.find?_cons]
    cases hpx : p x with
    | true => simp [hpx] at h
    | false =>
      simp only [hpx] at h ⊢
      exact ih h

theorem find?_eq_none_of {α : Type} (p : α → Bool) (l : List α)
    (h : ∀ x ∈ l, p x = false) : l.find? p = none := by
  induction l with
  | nil => rfl
  | cons x xs ih =>
    rw [List.find?_cons, h x (by simp)]
    exact ih fun y hy => h y (by simp [hy])

theorem foldl_maxStep_mem (l : List Document) (a : Document) :
    l.foldl maxStep a = a ∨ l.foldl maxStep a ∈ l := by
  induction l generalizing a with
  | nil => exact Or.inl rfl
  | cons x xs ih =>
    rw [List.foldl_cons]
    rcases ih (maxStep a x) with h | h
    · rw [h]
      unfold maxStep
      split
      · exact Or.inr (List.mem_cons_self x xs)
      · exact Or.inl rfl
    · exact Or.inr (List.mem_cons_of_mem x h)

theorem foldl_maxStep_ge (l : List Document) (a : Document) :
    idLt (l.foldl maxStep a).id a.id = false ∧
      ∀ x ∈ l, idLt (l.foldl maxStep a).id x.id = false := by
  induction l generalizing a with
  | nil => exact ⟨idLt_irrefl _, by simp⟩
  | cons x xs ih =>
    rw [List.foldl_cons]
    obtain ⟨h1, h2⟩ := ih (maxStep a x)
    have hax : idLt (maxStep a x).id a.id = false := by
      unfold maxStep
      split
      · next hlt => exact idLt_asymm _ _ hlt
      · exact idLt_irrefl _
    have hxx : idLt (maxStep a x).id x.id = false := by
      unfold maxStep
      split
      · exact idLt_irrefl _
      · next hlt => simpa using hlt
    refine ⟨idLe_trans _ _ _ hax h1, ?_⟩
    intro y hy
    rcases List.mem_cons.mp hy with rfl | hy'
    · exact idLe_trans _ _ _ hxx h1
    · exact h2 y hy'

theorem maxIdDoc_spec (d : Document) (rest : Store) :
    ∃ b, maxIdDoc (d :: rest) = some b ∧ b ∈ d :: rest ∧
      idLt b.id d.id = false ∧ ∀ x ∈ rest, idLt b.id x.id = false := by
  refine ⟨rest.foldl maxStep d, rfl, ?_,
    (foldl_maxStep_ge rest d).1, (foldl_maxStep_ge rest d).2⟩
  rcases foldl_maxStep_mem rest d with h | h
  · rw [h]; exact List.mem_cons_self _ _
  · exact List.mem_cons_of_mem _ h

theorem getNewId_spec (s : Store) (hne : s ≠ [])
    (hwf : ∀ d ∈ s, d.id.isSome) :
    ∃ m, getNewId s false = .ok (m + 1) ∧ (∃ d ∈ s, d.id = some m) ∧
      ∀ d ∈ s, ∀ k, d.id = some k → k ≤ m := by
  cases s with
  | nil => exact absurd rfl hne
  | cons d rest =>
    obtain ⟨b, hb, hbmem, hbd, hbrest⟩ := maxIdDoc_spec d rest
    obtain ⟨m, hm⟩ := Option.isSome_iff_exists.mp (hwf b hbmem)
    refine ⟨m, ?_, ⟨b, hbmem, hm⟩, ?_⟩
    · simp [getNewId, hb, hm]
    · intro e he k hk
      have hle : idLt b.id e.id = false := by
        rcases List.mem_cons.mp he with rfl | h
        · exact hbd
        · exact hbrest e h
      rw [hm, hk] at hle
      simp [idLt] at hle
      omega

/-! ## The claims -/

/-- C4: isCompleteDocument is true iff content is present and title,
content.header, content.data and signee are all present; in particular a
document with only a title is not complete, and one with title, signee and
both content fields is. -/
theorem isCompleteDocument_spec :
    (∀ d : Document, isCompleteDocument d = true ↔
      ∃ c, d.content = some c ∧ d.title.isSome ∧ c.header.isSome ∧
        c.data.isSome ∧ d.signee.isSome) ∧
    isCompleteDocument ⟨none, some "t", none, none⟩ = false ∧
    isCompleteDocument ⟨none, some "t", some ⟨some "h", some "d"⟩, some "s"⟩ = true := by
  refine ⟨fun d => ?_, rfl, rfl⟩
  rcases d with ⟨i, t, c, sg⟩
  cases c <;> simp [isCompleteDocument] <;> tauto

/-- C5: isValidPatchDocument is true iff at least one of title, signee,
content.header, content.data is present; in particular false on the empty
document and true on each single-field patch. -/
theorem isValidPatchDocument_spec :
    (∀ d : Document, isValidPatchDocument d = true ↔
      (d.title.isSome ∨ d.signee.isSome ∨
        ∃ c, d.content = some c ∧ (c.header.isSome ∨ c.data.isSome))) ∧
    isValidPatchDocument ⟨none, none, none, none⟩ = false ∧
    isValidPatchDocument ⟨none, some "t", none, none⟩ = true ∧
    isValidPatchDocument ⟨none, none, some ⟨some "h", none⟩, none⟩ = true ∧
    isValidPatchDocument ⟨none, none, none, some "s"⟩ = true := by
  refine ⟨fun d => ?_, rfl, rfl, rfl, rfl⟩
  rcases d with ⟨i, t, c, sg⟩
  cases c <;> simp [isValidPatchDocument] <;> tauto

/-- C2: every successful create returns a document whose identifier is the
maximum identifier in the collection at creation time plus one, or 0 when
the collection was empty, and any client-supplied identifier in the request
body is overwritten by that fresh identifier. -/
theorem createDocument_new_id (s : Store) (document : Document)
    (hwf : ∀ d ∈ s, d.id.isSome) :
    ∃ n created,
      createDocument s document false false false = ((OK, some created), s ++ [created]) ∧
      created = { document with id := some n } ∧
      ((s = [] ∧ n = 0) ∨
        (∃ m, n = m + 1 ∧ (∃ d ∈ s, d.id = some m) ∧
          ∀ d ∈ s, ∀ k, d.id = some k → k ≤ m)) := by
  cases s with
  | nil => exact ⟨0, { document with id := some 0 }, rfl, rfl, Or.inl ⟨rfl, rfl⟩⟩
  | cons d rest =>
    obtain ⟨m, hget, hat, hmax⟩ := getNewId_spec (d :: rest) (by simp) hwf
    refine ⟨m + 1, { document with id := some (m + 1) }, ?_, rfl,
      Or.inr ⟨m, rfl, hat, hmax⟩⟩
    have hnone : (d :: rest).find? (fun x => x.id == some (m + 1 : Int)) = none := by
      apply find?_eq_none_of
      intro x hx
      obtain ⟨k, hk⟩ := Option.isSome_iff_exists.mp (hwf x hx)
      have hle := hmax x hx k hk
      simp [hk]
      omega
    have hfind : ((d :: rest) ++ [{ document with id := some (m + 1) }]).find?
        (fun x => x.id == some (m + 1 : Int)) =
        some { document with id := some (m + 1) } := by
      rw [find?_append_none _ _ _ hnone]
      simp [List.find?]
    simp only [List.cons_append] at hfind
    simp [createDocument, hget, internalGetDocument, getDocument, hfind]

/-- C2 witness: creating against a store holding one record with id 4 and a
request body carrying client id 9 yields a record with id 5 appended. -/
theorem createDocument_new_id_witness :
    ∃ n created,
      createDocument [⟨some 4, none, none, none⟩] ⟨some 9, some "T", none, some "S"⟩
          false false false =
        ((OK, some created), [⟨some 4, none, none, none⟩] ++ [created]) ∧
      created = { (⟨some 9, some "T", none, some "S"⟩ : Document) with id := some n } ∧
      (([(⟨some 4, none, none, none⟩ : Document)] = ([] : Store) ∧ n = 0) ∨
        (∃ m, n = m + 1 ∧
          (∃ d ∈ [(⟨some 4, none, none, none⟩ : Document)], d.id = some m) ∧
          ∀ d ∈ [(⟨some 4, none, none, none⟩ : Document)], ∀ k, d.id = some k → k ≤ m)) :=
  createDocument_new_id [⟨some 4, none, none, none⟩] ⟨some 9, some "T", none, some "S"⟩
    (by simp)

theorem getDocument_cases (s : Store) (id : Int) (f : Bool) :
    getDocument s id f = (CouldNotProceed, none) ∨
    getDocument s id f = (NotFound, none) ∨
    ∃ d, getDocument s id f = (OK, some d) := by
  unfold getDocument
  cases f with
  | true => simp
  | false =>
    cases h : s.find? (fun d => d.id == some id) with
    | none => simp [h]
    | some d => exact Or.inr (Or.inr ⟨d, by simp [h]⟩)

theorem internalGetDocument_cases (s : Store) (id : Int) (f : Bool) :
    internalGetDocument s id f = (CouldNotProceed, none) ∨
    internalGetDocument s id f = (ImplementationError, none) ∨
    ∃ d, internalGetDocument s id f = (OK, some d) := by
  rcases getDocument_cases s id f with h | h | ⟨d, h⟩
  · exact Or.inl (by simp [internalGetDocument, h])
  · exact Or.inr (Or.inl (by simp [internalGetDocument, h]))
  · exact Or.inr (Or.inr ⟨d, by simp [internalGetDocument, h]⟩)

/-- C7: the re-fetch helper used after every successful create and update
mutation maps a not-found outcome to ImplementationError, never to NotFound:
it returns OK with the document on success, CouldNotProceed on store
failure, and ImplementationError otherwise; createDocument and
updateDocument wire their post-mutation re-fetch through it. -/
theorem internalGetDocument_contract (s : Store) (id : Int) :
    internalGetDocument s id true = (CouldNotProceed, none) ∧
    (getDocument s id false = (NotFound, none) →
      internalGetDocument s id false = (ImplementationError, none)) ∧
    (∀ d, getDocument s id false = (OK, some d) →
      internalGetDocument s id false = (OK, some d)) ∧
    (∀ f, (internalGetDocument s id f).1 ≠ NotFound) ∧
    (∀ document n rf, getNewId s false = .ok n →
      createDocument s document false false rf =
        (internalGetDocument (s ++ [{ document with id := some n }]) n rf,
          s ++ [{ document with id := some n }])) ∧
    (∀ patch i s2 rf, patch.id = some i →
      updateFirst s i (toStrippedMap patch) = some s2 →
      updateDocument s patch false rf = (internalGetDocument s2 i rf, s2)) := by
  refine ⟨rfl, ?_, ?_, ?_, ?_, ?_⟩
  · intro h; simp [internalGetDocument, h]
  · intro d h; simp [internalGetDocument, h]
  · intro f
    rcases internalGetDocument_cases s id f with h | h | ⟨d, h⟩ <;> simp [h]
  · intro document n rf hn; simp [createDocument, hn]
  · intro patch i s2 rf hp hup; simp [updateDocument, hp, hup]

/-- C10: every document-access operation couples status and payload
consistently — the document component is non-nil exactly when the status is
OK, for getDocument, internalGetDocument, createDocument and
updateDocument. -/
theorem status_document_coupling (s : Store) (id : Int)
    (f idF insF refF uF : Bool) (document patch : Document) :
    ((getDocument s id f).1 = OK ↔ (getDocument s id f).2.isSome) ∧
    ((internalGetDocument s id f).1 = OK ↔ (internalGetDocument s id f).2.isSome) ∧
    ((createDocument s document idF insF refF).1.1 = OK ↔
      (createDocument s document idF insF refF).1.2.isSome) ∧
    ((updateDocument s patch uF refF).1.1 = OK ↔
      (updateDocument s patch uF refF).1.2.isSome) := by
  refine ⟨?_, ?_, ?_, ?_⟩
  · rcases getDocument_cases s id f with h | h | ⟨d, h⟩ <;> simp [h]
  · rcases internalGetDocument_cases s id f with h | h | ⟨d, h⟩ <;> simp [h]
  · unfold createDocument
    cases hg : getNewId s idF with
    | error e => simp
    | ok n =>
      cases insF with
      | true => simp
      | false =>
        rcases internalGetDocument_cases (s ++ [{ document with id := some n }]) n refF
          with h | h | ⟨d, h⟩ <;> simp [h]
  · unfold updateDocument
    cases hp : patch.id with
    | none => simp
    | some i =>
      cases uF with
      | true => simp
      | false =>
        cases hu : updateFirst s i (toStrippedMap patch) with
        | none => simp [hu]
        | some s2 =>
          rcases internalGetDocument_cases s2 i refF with h | h | ⟨d, h⟩ <;> simp [hu, h]

/-- C6: a patch without an identifier makes updateDocument return
ImplementationError with no document and an unchanged store, whatever the
store and failure flags; the update handler maps ImplementationError to
HTTP 500. -/
theorem updateDocument_missing_id (s : Store) (patch : Document)
    (uF rF : Bool) (h : patch.id = none) :
    updateDocument s patch uF rF = ((ImplementationError, none), s) ∧
    ∀ idParam d, handleUpdateDocumentResponse idParam (ImplementationError, d) =
      (500, .httpError "unexpected server state") :=
  ⟨by simp [updateDocument, h], fun idParam d => rfl⟩

/-- C6 witness: the empty patch against the empty store. -/
theorem updateDocument_missing_id_witness :
    updateDocument [] ⟨none, none, none, none⟩ false false =
      ((ImplementationError, none), []) ∧
    ∀ idParam d, handleUpdateDocumentResponse idParam (ImplementationError, d) =
      (500, .httpError "unexpected server state") :=
  updateDocument_missing_id [] ⟨none, none, none, none⟩ false false rfl

theorem deleteFirst_eq_none (s : Store) (id : Int)
    (h : ∀ d ∈ s, d.id ≠ some id) : deleteFirst s id = none := by
  induction s with
  | nil => rfl
  | cons d rest ih =>
    have hd : (d.id == some id) = false := by
      simp only [beq_eq_false_iff_ne, ne_eq]
      exact h d (List.mem_cons_self _ _)
    simp [deleteFirst, hd, ih fun e he => h e (List.mem_cons_of_mem _ he)]

theorem deleteFirst_found (pre post : Store) (d : Document) (id : Int)
    (hd : d.id = some id) (hpre : ∀ e ∈ pre, e.id ≠ some id) :
    deleteFirst (pre ++ d :: post) id = some (pre ++ post) := by
  induction pre with
  | nil => simp [deleteFirst, hd]
  | cons e pre ih =>
    have he : (e.id == some id) = false := by
      simp only [beq_eq_false_iff_ne, ne_eq]
      exact hpre e (List.mem_cons_self _ _)
    simp only [List.cons_append, deleteFirst, he, Bool.false_eq_true, if_false,
      List.append_eq]
    rw [ih fun x hx => hpre x (List.mem_cons_of_mem _ hx)]
    rfl

/-- C8: delete of an identifier matching no stored record is NotFound
(mapped to 404), deleting the only record with an identifier succeeds (OK,
mapped to 204) and a second delete of the same identifier is again NotFound;
a store failure is CouldNotProceed (mapped to 502). -/
theorem deleteDocument_spec (s : Store) (id : Int) :
    deleteDocument s id true = (CouldNotProceed, s) ∧
    ((∀ d ∈ s, d.id ≠ some id) → deleteDocument s id false = (NotFound, s)) ∧
    (∀ pre post d, s = pre ++ d :: post → d.id = some id →
      (∀ e ∈ pre, e.id ≠ some id) →
      deleteDocument s id false = (OK, pre ++ post)) ∧
    (∀ pre post d, s = pre ++ d :: post → d.id = some id →
      (∀ e ∈ pre ++ post, e.id ≠ some id) →
      deleteDocument s id false = (OK, pre ++ post) ∧
      deleteDocument (pre ++ post) id false = (NotFound, pre ++ post)) ∧
    (∀ idParam i, toInt idParam = .ok i → (∀ d ∈ s, d.id ≠ some i) →
      handleDeleteDocument s idParam false =
        ((404, .httpError ("could not find document with id " ++ idParam)), s)) ∧
    (∀ idParam, handleDeleteDocumentResponse idParam OK = (204, .empty)) ∧
    (∀ idParam, handleDeleteDocumentResponse idParam NotFound =
      (404, .httpError ("could not find document with id " ++ idParam))) := by
  refine ⟨rfl, ?_, ?_, ?_, ?_, fun idParam => rfl, fun idParam => rfl⟩
  · intro h
    simp [deleteDocument, deleteFirst_eq_none s id h]
  · rintro pre post d rfl hd hpre
    simp [deleteDocument, deleteFirst_found pre post d id hd hpre]
  · rintro pre post d rfl hd hall
    have hpre : ∀ e ∈ pre, e.id ≠ some id :=
      fun e he => hall e (List.mem_append_left _ he)
    refine ⟨by simp [deleteDocument, deleteFirst_found pre post d id hd hpre], ?_⟩
    simp [deleteDocument, deleteFirst_eq_none (pre ++ post) id hall]
  · intro idParam i hid hnone
    simp [handleDeleteDocument, hid, deleteDocument, deleteFirst_eq_none s i hnone,
      handleDeleteDocumentResponse]

theorem applyStrippedMap_spec (stored p : Document) :
    (applyStrippedMap stored (toStrippedMap p)).id = Option.or p.id stored.id ∧
    (applyStrippedMap stored (toStrippedMap p)).title = Option.or p.title stored.title ∧
    (applyStrippedMap stored (toStrippedMap p)).signee = Option.or p.signee stored.signee ∧
    contentHeader (applyStrippedMap stored (toStrippedMap p)) =
      Option.or (contentHeader p) (contentHeader stored) ∧
    contentData (applyStrippedMap stored (toStrippedMap p)) =
      Option.or (contentData p) (contentData stored) ∧
    (contentHeader p = none → contentData p = none →
      (applyStrippedMap stored (toStrippedMap p)).content = stored.content) := by
  rcases stored with ⟨si, st, sc, ss⟩
  rcases p with ⟨i, t, c, sg⟩
  rcases c with _ | ⟨ch, cd⟩
  · rcases i with _ | i <;> rcases t with _ | t <;> rcases sg with _ | sg <;>
      rcases sc with _ | ⟨sh, sd⟩ <;>
      simp [toStrippedMap, marshalDocument, marshalContent, flattenJson, flattenFields,
        joinKey, applyStrippedMap, setField, contentHeader, contentData, Option.or]
  · rcases ch with _ | ch <;> rcases cd with _ | cd <;>
      rcases i with _ | i <;> rcases t with _ | t <;> rcases sg with _ | sg <;>
      rcases sc with _ | ⟨sh, sd⟩ <;>
      simp [toStrippedMap, marshalDocument, marshalContent, flattenJson, flattenFields,
        joinKey, applyStrippedMap, setField, contentHeader, contentData, Option.or]

theorem toStrippedMap_no_null_keys (p : Document) :
    (p.id = none → ∀ v, ("id", v) ∉ toStrippedMap p) ∧
    (p.title = none → ∀ v, ("title", v) ∉ toStrippedMap p) ∧
    (contentHeader p = none → ∀ v, ("content.header", v) ∉ toStrippedMap p) ∧
    (contentData p = none → ∀ v, ("content.data", v) ∉ toStrippedMap p) ∧
    (p.signee = none → ∀ v, ("signee", v) ∉ toStrippedMap p) := by
  rcases p with ⟨i, t, c, sg⟩
  rcases c with _ | ⟨ch, cd⟩
  · rcases i with _ | i <;> rcases t with _ | t <;> rcases sg with _ | sg <;>
      simp [toStrippedMap, marshalDocument, marshalContent, flattenJson, flattenFields,
        joinKey, contentHeader, contentData]
  · rcases ch with _ | ch <;> rcases cd with _ | cd <;>
      rcases i with _ | i <;> rcases t with _ | t <;> rcases sg with _ | sg <;>
      simp [toStrippedMap, marshalDocument, marshalContent, flattenJson, flattenFields,
        joinKey, contentHeader, contentData]

theorem updateFirst_eq_none (s : Store) (id : Int) (m : List (String × Json))
    (h : ∀ d ∈ s, d.id ≠ some id) : updateFirst s id m = none := by
  induction s with
  | nil => rfl
  | cons d rest ih =>
    have hd : (d.id == some id) = false := by
      simp only [beq_eq_false_iff_ne, ne_eq]
      exact h d (List.mem_cons_self _ _)
    simp [updateFirst, hd, ih fun e he => h e (List.mem_cons_of_mem _ he)]

theorem updateFirst_found (pre post : Store) (d : Document) (id : Int)
    (m : List (String × Json)) (hd : d.id = some id)
    (hpre : ∀ e ∈ pre, e.id ≠ some id) :
    updateFirst (pre ++ d :: post) id m = some (pre ++ applyStrippedMap d m :: post) := by
  induction pre with
  | nil => simp [updateFirst, hd]
  | cons e pre ih =>
    have he : (e.id == some id) = false := by
      simp only [beq_eq_false_iff_ne, ne_eq]
      exact hpre e (List.mem_cons_self _ _)
    simp only [List.cons_append, updateFirst, he, Bool.false_eq_true, if_false,
      List.append_eq]
    rw [ih fun x hx => hpre x (List.mem_cons_of_mem _ hx)]
    rfl

theorem updateFirst_some (s : Store) (id : Int) (m : List (String × Json))
    (s2 : Store) (h : updateFirst s id m = some s2) :
    ∃ pre d post, s = pre ++ d :: post ∧ (∀ e ∈ pre, e.id ≠ some id) ∧
      d.id = some id ∧ s2 = pre ++ applyStrippedMap d m :: post := by
  induction s generalizing s2 with
  | nil => simp [updateFirst] at h
  | cons x rest ih =>
    rw [updateFirst] at h
    by_cases hx : x.id = some id
    · rw [if_pos (by simp [hx])] at h
      exact ⟨[], x, rest, by simp, by simp, hx, by simpa using h.symm⟩
    · rw [if_neg (by simp [hx])] at h
      obtain ⟨s3, hs3, rfl⟩ := Option.map_eq_some'.mp h
      obtain ⟨pre, d, post, rfl, hpre, hd, rfl⟩ := ih s3 hs3
      refine ⟨x :: pre, d, post, by simp, ?_, hd, by simp⟩
      intro e he
      rcases List.mem_cons.mp he with rfl | he'
      · exact hx
      · exact hpre e he'

theorem find?_prefix_hit {α : Type} (p : α → Bool) (pre post : List α) (x : α)
    (hx : p x = true) (hpre : ∀ e ∈ pre, p e = false) :
    (pre ++ x :: post).find? p = some x := by
  rw [find?_append_none _ _ _ (find?_eq_none_of _ _ hpre)]
  simp [List.find?, hx]

/-- C1: update merges only the provided fields.  Against a store whose first
record matching the patch id is `stored`, a successful update returns and
stores a record in which exactly the non-null patch fields overwrite the
stored ones; null patch fields are left untouched (they do not even appear
in the sparse field map), and an untouched sibling nested field survives a
partial content patch. -/
theorem updateDocument_merges (pre post : Store) (stored patch : Document)
    (i : Int) (hp : patch.id = some i) (hs : stored.id = some i)
    (hpre : ∀ d ∈ pre, d.id ≠ some i) :
    ∃ r, updateDocument (pre ++ stored :: post) patch false false =
        ((OK, some r), pre ++ r :: post) ∧
      r.id = some i ∧
      r.title = Option.or patch.title stored.title ∧
      r.signee = Option.or patch.signee stored.signee ∧
      contentHeader r = Option.or (contentHeader patch) (contentHeader stored) ∧
      contentData r = Option.or (contentData patch) (contentData stored) ∧
      (patch.title = none → r.title = stored.title) ∧
      (patch.signee = none → r.signee = stored.signee) ∧
      (contentHeader patch = none → contentData patch = none →
        r.content = stored.content) ∧
      (patch.title = none → ∀ v, ("title", v) ∉ toStrippedMap patch) ∧
      (patch.signee = none → ∀ v, ("signee", v) ∉ toStrippedMap patch) ∧
      (contentHeader patch = none → ∀ v, ("content.header", v) ∉ toStrippedMap patch) ∧
      (contentData patch = none → ∀ v, ("content.data", v) ∉ toStrippedMap patch) := by
  obtain ⟨hid, htitle, hsignee, hch, hcd, hcontent⟩ := applyStrippedMap_spec stored patch
  set r := applyStrippedMap stored (toStrippedMap patch) with hr
  have hrid : r.id = some i := by rw [hid, hp]; rfl
  have hupd : updateFirst (pre ++ stored :: post) i (toStrippedMap patch) =
      some (pre ++ r :: post) :=
    updateFirst_found pre post stored i (toStrippedMap patch) hs hpre
  have hfind : (pre ++ r :: post).find? (fun d => d.id == some i) = some r :=
    find?_prefix_hit _ pre post r (by simp [hrid])
      (fun e he => by simpa using hpre e he)
  obtain ⟨hmem1, hmem2, hmem3, hmem4, hmem5⟩ := toStrippedMap_no_null_keys patch
  refine ⟨r, ?_, hrid, htitle, hsignee, hch, hcd, ?_, ?_, hcontent,
    hmem2, hmem5, hmem3, hmem4⟩
  · simp [updateDocument, hp, hupd, internalGetDocument, getDocument, hfind]
  · intro h; rw [htitle, h]; rfl
  · intro h; rw [hsignee, h]; rfl

/-- C1 witness: the spec's example — stored
`{id:1,title:"A",content:{header:"H",data:"D"},signee:"S"}` patched with
`{id:1,content:{header:"H2"}}`. -/
theorem updateDocument_merges_witness :
    ∃ r, updateDocument [⟨some 1, some "A", some ⟨some "H", some "D"⟩, some "S"⟩]
        ⟨some 1, none, some ⟨some "H2", none⟩, none⟩ false false =
        ((OK, some r), [r]) ∧
      r.id = some 1 ∧
      r.title = Option.or none (some "A") ∧
      r.signee = Option.or none (some "S") ∧
      contentHeader r = Option.or (some "H2") (some "H") ∧
      contentData r = Option.or none (some "D") ∧
      ((none : Option String) = none → r.title = some "A") ∧
      ((none : Option String) = none → r.signee = some "S") ∧
      ((some "H2" : Option String) = none → (none : Option String) = none →
        r.content = some ⟨some "H", some "D"⟩) ∧
      ((none : Option String) = none → ∀ v,
        ("title", v) ∉ toStrippedMap ⟨some 1, none, some ⟨some "H2", none⟩, none⟩) ∧
      ((none : Option String) = none → ∀ v,
        ("signee", v) ∉ toStrippedMap ⟨some 1, none, some ⟨some "H2", none⟩, none⟩) ∧
      ((some "H2" : Option String) = none → ∀ v,
        ("content.header", v) ∉ toStrippedMap ⟨some 1, none, some ⟨some "H2", none⟩, none⟩) ∧
      ((none : Option String) = none → ∀ v,
        ("content.data", v) ∉ toStrippedMap ⟨some 1, none, some ⟨some "H2", none⟩, none⟩) :=
  updateDocument_merges [] []
    ⟨some 1, some "A", some ⟨some "H", some "D"⟩, some "S"⟩
    ⟨some 1, none, some ⟨some "H2", none⟩, none⟩ 1 rfl rfl (by simp)

theorem updateDocument_ne_implementationError (s : Store) (p : Document)
    (i : Int) (hp : p.id = some i) (uF rF : Bool) :
    (updateDocument s p uF rF).1.1 ≠ ImplementationError := by
  unfold updateDocument
  rw [hp]
  cases uF with
  | true => simp
  | false =>
    cases hu : updateFirst s i (toStrippedMap p) with
    | none => simp [hu]
    | some s2 =>
      cases rF with
      | true => simp [hu, internalGetDocument, getDocument]
      | false =>
        obtain ⟨pre, d, post, rfl, hpre, hd, rfl⟩ :=
          updateFirst_some s i (toStrippedMap p) s2 hu
        have hrid : (applyStrippedMap d (toStrippedMap p)).id = some i := by
          rw [(applyStrippedMap_spec d p).1, hp]; rfl
        have hfind := find?_prefix_hit (fun x => x.id == some i) pre post
          (applyStrippedMap d (toStrippedMap p)) (by simp [hrid])
          (fun e he => by simpa using hpre e he)
        simp [hu, internalGetDocument, getDocument, hfind]

theorem handleUpdateDocumentResponse_ne_500 (idParam : String)
    (result : DocumentStatus × Option Document)
    (h : result.1 ≠ ImplementationError) :
    (handleUpdateDocumentResponse idParam result).1 ≠ 500 := by
  rcases result with ⟨st, d⟩
  cases st <;> simp [handleUpdateDocumentResponse] at h ⊢

/-- C9: whenever the update handler reaches updateDocument, the patch it
passes carries the parsed path identifier as its (non-null) id — the handler
either rejected a mismatching body id with 400 or injected the path id — so
updateDocument's missing-identifier ImplementationError branch is
unreachable from the handler: no HTTP 500 can be produced. -/
theorem handleUpdateDocument_reconciles_id (s : Store) (idParam : String)
    (body : Except Unit Document) (uF rF : Bool) :
    (∀ id patch, toInt idParam = .ok id → body = .ok patch →
      isValidPatchDocument patch = true → (patch.id = some id ∨ patch.id = none) →
      ∃ patch2, patch2.id = some id ∧
        (updateDocument s patch2 uF rF).1.1 ≠ ImplementationError ∧
        handleUpdateDocument s idParam body uF rF =
          (handleUpdateDocumentResponse idParam (updateDocument s patch2 uF rF).1,
            (updateDocument s patch2 uF rF).2)) ∧
    (handleUpdateDocument s idParam body uF rF).1.1 ≠ 500 := by
  constructor
  · rintro id patch hid rfl hv (hpid | hpid)
    · refine ⟨patch, hpid, updateDocument_ne_implementationError s patch id hpid uF rF, ?_⟩
      rcases hu : updateDocument s patch uF rF with ⟨res, upd⟩
      simp [handleUpdateDocument, hid, hv, hpid, hu]
    · refine ⟨{ patch with id := some id }, rfl,
        updateDocument_ne_implementationError s _ id rfl uF rF, ?_⟩
      rcases hu : updateDocument s { patch with id := some id } uF rF with ⟨res, upd⟩
      simp [handleUpdateDocument, hid, hv, hpid, hu]
  · cases hid : toInt idParam with
    | error e => simp [handleUpdateDocument, hid]
    | ok id =>
      cases body with
      | error e => simp [handleUpdateDocument, hid]
      | ok patch =>
        by_cases hv : isValidPatchDocument patch = true
        · cases hpid : patch.id with
          | none =>
            rcases hu : updateDocument s { patch with id := some id } uF rF with ⟨res, upd⟩
            have hne : res.1 ≠ ImplementationError := by
              have := updateDocument_ne_implementationError s
                { patch with id := some id } id rfl uF rF
              rwa [hu] at this
            simp only [handleUpdateDocument, hid, hv, hpid, hu, Bool.not_true,
              Bool.false_eq_true, if_false]
            exact handleUpdateDocumentResponse_ne_500 idParam res hne
          | some bodyId =>
            by_cases hbi : bodyId = id
            · subst hbi
              rcases hu : updateDocument s patch uF rF with ⟨res, upd⟩
              have hne : res.1 ≠ ImplementationError := by
                have := updateDocument_ne_implementationError s patch bodyId hpid uF rF
                rwa [hu] at this
              simp only [handleUpdateDocument, hid, hv, hpid, hu, Bool.not_true,
                Bool.false_eq_true, if_false, bne_self_eq_false]
              exact handleUpdateDocumentResponse_ne_500 idParam res hne
            · simp [handleUpdateDocument, hid, hv, hpid, hbi]
        · simp [handleUpdateDocument, hid, hv]

/-- C3 counterexample: path id 3 with body `{id:5}` and no other fields — a
body id differing from the path id, but the response is the empty-patch 400
message, not a conflict naming the two identifiers. -/
theorem update_conflict_counterexample :
    (handleUpdateDocument [] "3" (.ok ⟨some 5, none, none, none⟩) false false).1 =
      (400, .httpError
        "not a valid document for update; at least one field except id is needed.") ∧
    (handleUpdateDocument [] "3" (.ok ⟨some 5, none, none, none⟩) false false).1 ≠
      (400, .httpError ("id in request (3) does not correpsond to id in json object (5)")) := by
  constructor
  · rfl
  · decide

/-- C3 (amended): for a PATCH whose body is a valid patch document, a body
id differing from the path id always yields the 400 conflict response naming
both identifiers, whatever the other fields; a body with no id gets the path
id injected before being passed downstream to updateDocument.  (A body
carrying only a mismatching id and no effective fields is instead rejected
by the empty-patch 400 check, which runs first.) -/
theorem handleUpdateDocument_id_conflict (s : Store) (idParam : String)
    (id : Int) (patch : Document) (uF rF : Bool)
    (hid : toInt idParam = .ok id) (hv : isValidPatchDocument patch = true) :
    (∀ bodyId, patch.id = some bodyId → bodyId ≠ id →
      handleUpdateDocument s idParam (.ok patch) uF rF =
        ((400, .httpError ("id in request (" ++ toString id ++
          ") does not correpsond to id in json object (" ++ toString bodyId ++ ")")), s)) ∧
    (patch.id = none →
      handleUpdateDocument s idParam (.ok patch) uF rF =
        (handleUpdateDocumentResponse idParam
          (updateDocument s { patch with id := some id } uF rF).1,
          (updateDocument s { patch with id := some id } uF rF).2)) := by
  constructor
  · intro bodyId hpid hne
    simp [handleUpdateDocument, hid, hv, hpid, hne]
  · intro hpid
    rcases hu : updateDocument s { patch with id := some id } uF rF with ⟨res, upd⟩
    simp [handleUpdateDocument, hid, hv, hpid, hu]

/-- C3 witness: path id 3, valid patch `{id:5,title:"t"}` — the conflict 400
names 3 and 5; and a valid patch without an id is passed on with id 3. -/
theorem handleUpdateDocument_id_conflict_witness :
    (∀ bodyId, (⟨some 5, some "t", none, none⟩ : Document).id = some bodyId →
      bodyId ≠ 3 →
      handleUpdateDocument [] "3" (.ok ⟨some 5, some "t", none, none⟩) false false =
        ((400, .httpError ("id in request (" ++ toString (3 : Int) ++
          ") does not correpsond to id in json object (" ++ toString bodyId ++ ")")), [])) ∧
    ((⟨some 5, some "t", none, none⟩ : Document).id = none →
      handleUpdateDocument [] "3" (.ok ⟨some 5, some "t", none, none⟩) false false =
        (handleUpdateDocumentResponse "3"
          (updateDocument []
            { (⟨some 5, some "t", none, none⟩ : Document) with id := some 3 } false false).1,
          (updateDocument []
            { (⟨some 5, some "t", none, none⟩ : Document) with id := some 3 } false false).2)) :=
  handleUpdateDocument_id_conflict [] "3" 3 ⟨some 5, some "t", none, none⟩
    false false rfl rfl
